import Mathlib

/-!
Verification of the `senseai` process-supervisor package.

The Python sources under `senseai/` are shallowly embedded below:

* `senseai/binary.py`  — `get_platform_info`, `_find_in_path`, `get_binary_path`
* `senseai/server.py`  — the PID store (`_save_pid` / `_read_pid`), `is_running`,
  `_wait_for_ready`, `start`, `stop`
* `senseai/client.py`  — `get_findings`, `stream_findings`

Strings are modelled as `List Char`; Python `str.lower`, `str.strip`,
`str(int)` and `int(str)` are modelled by the executable helpers below.
External collaborators (the OS process table as seen through psutil, the
filesystem, HTTP) are modelled as explicit environment records: each
operation becomes a pure function of the supervisor state and such an
environment, so every theorem can be evaluated on concrete inputs.
-/

namespace Sense

/-- ASCII lower-casing of one character, modelling Python `str.lower` on the
ASCII names this package compares (binary names, platform strings). -/
def asciiLower (c : Char) : Char :=
  if 'A' ≤ c ∧ c ≤ 'Z' then Char.ofNat (c.toNat + 32) else c

/-- Model of Python `str.lower` on a character list. -/
def pyLower (s : List Char) : List Char := s.map asciiLower

/-- Boolean list-prefix test used to define substring containment. -/
def listPrefixOf : List Char → List Char → Bool
  | [], _ => true
  | _ :: _, [] => false
  | a :: as, b :: bs => (a = b) && listPrefixOf as bs

/-- Boolean substring containment, modelling Python `needle in haystack`. -/
def listContainsSub (needle : List Char) : List Char → Bool
  | [] => listPrefixOf needle []
  | c :: rest => listPrefixOf needle (c :: rest) || listContainsSub needle rest

/-- Python whitespace predicate used by `str.strip`. -/
def isPySpace (c : Char) : Bool :=
  c = ' ' || c = '\t' || c = '\n' || c = '\r' || c = '\x0b' || c = '\x0c'

/-- Model of Python `str.strip`: drop whitespace from both ends. -/
def pyStrip (l : List Char) : List Char :=
  ((l.dropWhile isPySpace).reverse.dropWhile isPySpace).reverse

/-- Numeric value of a decimal digit character. -/
def digitVal (c : Char) : Nat := c.toNat - 48

/-- Accumulator loop of decimal parsing: fails on the first non-digit. -/
def parseNatGo : Nat → List Char → Option Nat
  | acc, [] => some acc
  | acc, c :: cs => if c.isDigit then parseNatGo (acc * 10 + digitVal c) cs else none

/-- Decimal parse of a nonempty all-digit character list. -/
def parseNatChars (l : List Char) : Option Nat :=
  match l with
  | [] => none
  | c :: cs => parseNatGo 0 (c :: cs)

/-- Core of Python `int(str)` after stripping: optional single sign, digits. -/
def pyIntCore : List Char → Option Int
  | [] => none
  | c :: rest =>
    if c = '-' then (parseNatChars rest).map (fun n => -(n : Int))
    else if c = '+' then (parseNatChars rest).map (fun n => (n : Int))
    else (parseNatChars (c :: rest)).map (fun n => (n : Int))

/-- Model of Python `int(s)` on a string: strips whitespace, then parses an
optionally signed decimal integer; `none` models the `ValueError`. -/
def pyIntOfChars (s : List Char) : Option Int := pyIntCore (pyStrip s)

/-- Decimal digit character for `d < 10`. -/
def digitCharOf (d : Nat) : Char := Char.ofNat (48 + d)

/-- Fuel-driven decimal printing of a natural number (most significant first). -/
def natToCharsAux : Nat → Nat → List Char
  | 0, _ => []
  | fuel + 1, n =>
    if n < 10 then [digitCharOf n]
    else natToCharsAux fuel (n / 10) ++ [digitCharOf (n % 10)]

/-- Decimal printing of a natural number, modelling Python `str` on `n ≥ 0`. -/
def natToChars (n : Nat) : List Char := natToCharsAux (n + 1) n

/-- Model of Python `str(int)`. -/
def pyStrOfInt : Int → List Char
  | Int.ofNat m => natToChars m
  | Int.negSucc m => '-' :: natToChars (m + 1)

/-- Contents of the PID file: `none` models a missing file. -/
abbrev PidFile := Option (List Char)

/-- Embedding of `SenseServer._save_pid`: write `str(pid)`, overwriting. -/
def save_pid (pid : Int) (_f : PidFile) : PidFile := some (pyStrOfInt pid)

/-- Embedding of `SenseServer._read_pid`: missing file or `int()` failure
give `None`; otherwise `int(text.strip())`. -/
def read_pid : PidFile → Option Int
  | none => none
  | some text => pyIntOfChars (pyStrip text)

/-- Embedding of `BinaryManager.get_platform_info`: lower-case the
OS-reported strings, then apply the two normalization tables (each `dict.get`
falls back to the lower-cased input itself). -/
def get_platform_info (system machine : List Char) : List Char × List Char :=
  let s := pyLower system
  let m := pyLower machine
  let os_name :=
    if s = "darwin".data then "darwin".data
    else if s = "linux".data then "linux".data
    else if s = "windows".data then "windows".data
    else s
  let arch :=
    if m = "x86_64".data then "amd64".data
    else if m = "amd64".data then "amd64".data
    else if m = "arm64".data then "arm64".data
    else if m = "aarch64".data then "arm64".data
    else m
  (os_name, arch)

/- Lemmas about the decimal printer and parser, leading to the PID-store
round trip. -/

lemma digitCharOf_spec (d : Nat) (h : d < 10) :
    (digitCharOf d).isDigit = true ∧ digitVal (digitCharOf d) = d := by
  interval_cases d <;> exact ⟨by decide, by decide⟩

lemma digitCharOf_not_sign (d : Nat) (h : d < 10) :
    digitCharOf d ≠ '-' ∧ digitCharOf d ≠ '+' := by
  interval_cases d <;> exact ⟨by decide, by decide⟩

lemma isPySpace_digitCharOf (d : Nat) (h : d < 10) : isPySpace (digitCharOf d) = false := by
  interval_cases d <;> decide

lemma parseNatGo_append (acc : Nat) (xs ys : List Char) :
    parseNatGo acc (xs ++ ys) = (parseNatGo acc xs).bind (fun a => parseNatGo a ys) := by
  induction xs generalizing acc with
  | nil => simp [parseNatGo]
  | cons c cs ih =>
    simp only [List.cons_append, parseNatGo]
    by_cases hc : c.isDigit
    · simp [hc, ih]
    · simp [hc]

lemma natToCharsAux_ne_nil (fuel n : Nat) (h : 0 < fuel) : natToCharsAux fuel n ≠ [] := by
  cases fuel with
  | zero => omega
  | succ fuel =>
    simp only [natToCharsAux]
    split <;> simp

lemma mem_natToCharsAux (fuel n : Nat) (c : Char) (hc : c ∈ natToCharsAux fuel n) :
    ∃ d, d < 10 ∧ c = digitCharOf d := by
  induction fuel generalizing n with
  | zero => simp [natToCharsAux] at hc
  | succ fuel ih =>
    simp only [natToCharsAux] at hc
    by_cases h10 : n < 10
    · rw [if_pos h10] at hc
      simp at hc
      exact ⟨n, h10, hc⟩
    · rw [if_neg h10] at hc
      rcases List.mem_append.mp hc with h | h
      · exact ih _ h
      · simp at h
        exact ⟨n % 10, Nat.mod_lt _ (by norm_num), h⟩

lemma parseNatGo_natToCharsAux (fuel : Nat) : ∀ n acc, n < fuel →
    parseNatGo acc (natToCharsAux fuel n) =
      some (acc * 10 ^ (natToCharsAux fuel n).length + n) := by
  induction fuel with
  | zero => intro n acc h; omega
  | succ fuel ih =>
    intro n acc h
    by_cases h10 : n < 10
    · obtain ⟨hd, hv⟩ := digitCharOf_spec n h10
      simp [natToCharsAux, if_pos h10, parseNatGo, hd, hv]
    · have hn0 : 0 < n := by omega
      have hdivlt : n / 10 < n := Nat.div_lt_self hn0 (by norm_num)
      have hdiv : n / 10 < fuel := by omega
      obtain ⟨hd, hv⟩ := digitCharOf_spec (n % 10) (Nat.mod_lt _ (by norm_num))
      simp only [natToCharsAux, if_neg h10]
      rw [parseNatGo_append, ih (n / 10) acc hdiv]
      simp only [Option.some_bind, parseNatGo, hd, if_pos, hv, List.length_append,
        List.length_cons, List.length_nil]
      have hq : 10 * (n / 10) + n % 10 = n := Nat.div_add_mod n 10
      refine congrArg some ?_
      calc (acc * 10 ^ (natToCharsAux fuel (n / 10)).length + n / 10) * 10 + n % 10
          = acc * 10 ^ ((natToCharsAux fuel (n / 10)).length + (0 + 1))
              + (10 * (n / 10) + n % 10) := by ring
        _ = acc * 10 ^ ((natToCharsAux fuel (n / 10)).length + (0 + 1)) + n := by rw [hq]

lemma parseNatChars_natToChars (n : Nat) : parseNatChars (natToChars n) = some n := by
  have hne := natToCharsAux_ne_nil (n + 1) n (by omega)
  have hval := parseNatGo_natToCharsAux (n + 1) n 0 (by omega)
  unfold natToChars
  cases hl : natToCharsAux (n + 1) n with
  | nil => exact absurd hl hne
  | cons a as =>
    rw [hl] at hval
    simpa [parseNatChars] using hval

lemma dropWhile_eq_self_of (p : Char → Bool) (l : List Char)
    (h : ∀ c ∈ l, p c = false) : l.dropWhile p = l := by
  cases l with
  | nil => rfl
  | cons a as => simp [List.dropWhile, h a (by simp)]

lemma pyStrip_eq_self {l : List Char} (h : ∀ c ∈ l, isPySpace c = false) :
    pyStrip l = l := by
  unfold pyStrip
  rw [dropWhile_eq_self_of _ _ h,
    dropWhile_eq_self_of _ _ (fun c hc => h c (List.mem_reverse.mp hc)),
    List.reverse_reverse]

lemma mem_pyStrOfInt_nonspace (n : Int) : ∀ c ∈ pyStrOfInt n, isPySpace c = false := by
  intro c hc
  cases n with
  | ofNat m =>
    obtain ⟨d, hd, rfl⟩ := mem_natToCharsAux _ _ c hc
    exact isPySpace_digitCharOf d hd
  | negSucc m =>
    rcases List.mem_cons.mp hc with h | h
    · subst h; decide
    · obtain ⟨d, hd, rfl⟩ := mem_natToCharsAux _ _ c h
      exact isPySpace_digitCharOf d hd

lemma pyIntOfChars_pyStrOfInt (n : Int) : pyIntOfChars (pyStrOfInt n) = some n := by
  unfold pyIntOfChars
  rw [pyStrip_eq_self (mem_pyStrOfInt_nonspace n)]
  cases n with
  | ofNat m =>
    show pyIntCore (natToChars m) = some (Int.ofNat m)
    have hne := natToCharsAux_ne_nil (m + 1) m (by omega)
    have hparse := parseNatChars_natToChars m
    unfold natToChars at *
    cases hl : natToCharsAux (m + 1) m with
    | nil => exact absurd hl hne
    | cons a as =>
      rw [hl] at hparse
      have ha : a ∈ natToCharsAux (m + 1) m := by rw [hl]; simp
      obtain ⟨d, hd, rfl⟩ := mem_natToCharsAux _ _ a ha
      obtain ⟨hns1, hns2⟩ := digitCharOf_not_sign d hd
      simp [pyIntCore, hns1, hns2, hparse]
  | negSucc m =>
    show pyIntCore ('-' :: natToChars (m + 1)) = some (Int.negSucc m)
    have hparse := parseNatChars_natToChars (m + 1)
    simp [pyIntCore, hparse, Int.negSucc_eq]

/-- C4: PID store round-trip and tolerance — for every integer `n`,
`save(n)` followed by `read()` returns `n`; `read()` returns `None` (without
raising) both on a missing PID file and on non-integer contents such as
"abc". -/
theorem pid_store_roundtrip_and_tolerance :
    (∀ (n : Int) (f : PidFile), read_pid (save_pid n f) = some n) ∧
    read_pid (none : PidFile) = none ∧
    read_pid (some "abc".data) = none := by
  refine ⟨?_, rfl, by decide⟩
  intro n f
  show pyIntOfChars (pyStrip (pyStrOfInt n)) = some n
  rw [pyStrip_eq_self (mem_pyStrOfInt_nonspace n)]
  exact pyIntOfChars_pyStrOfInt n

/-- C7: platform normalization is a pure total function of the OS-reported
strings: the OS name is always the lower-cased system string (the OS table
maps each recognized key to itself), `x86_64`/`amd64` normalize to `amd64`,
`arm64`/`aarch64` normalize to `arm64`, and any other machine string passes
through lower-cased. -/
theorem get_platform_info_normalization (system machine : List Char) :
    (get_platform_info system machine).1 = pyLower system ∧
    ((pyLower machine = "x86_64".data ∨ pyLower machine = "amd64".data) →
      (get_platform_info system machine).2 = "amd64".data) ∧
    ((pyLower machine = "arm64".data ∨ pyLower machine = "aarch64".data) →
      (get_platform_info system machine).2 = "arm64".data) ∧
    ((pyLower machine ≠ "x86_64".data ∧ pyLower machine ≠ "amd64".data ∧
      pyLower machine ≠ "arm64".data ∧ pyLower machine ≠ "aarch64".data) →
      (get_platform_info system machine).2 = pyLower machine) := by
  refine ⟨?_, ?_, ?_, ?_⟩ <;> simp only [get_platform_info]
  · split_ifs with h1 h2 h3 <;> simp_all
  · intro h
    rcases h with h | h <;> simp [h]
  · intro h
    rcases h with h | h <;> split_ifs <;> simp_all
  · intro ⟨h1, h2, h3, h4⟩
    simp [h1, h2, h3, h4]

/-- Witness for C7 at the concrete pair reported on an Intel Mac. -/
theorem get_platform_info_normalization_witness :
    (get_platform_info "Darwin".data "x86_64".data).2 = "amd64".data :=
  (get_platform_info_normalization "Darwin".data "x86_64".data).2.1 (Or.inl (by decide))

/- Binary Locator (`senseai/binary.py`). Filesystem, `which` and the network
download are modelled by an explicit environment record. -/

/-- Provenance of a resolved binary path. -/
inductive BinSource where
  | memo
  | inPath
  | devTree
  | cache
  | downloaded
deriving DecidableEq

/-- Environment seen by `BinaryManager.get_binary_path`:
`memoPath` is `self._binary_path`; `pathExists` answers `Path.exists`;
`whichRun` is the `(returncode, stdout)` of running `which sense`
(`none` when `subprocess.run` itself raised); `download` is the outcome of
`_download_binary`. -/
structure BinEnv where
  memoPath : Option (List Char)
  pathExists : List Char → Bool
  whichRun : Option (Int × List Char)
  devPath : List Char
  cachePath : List Char
  download : Except (List Char) (List Char)

/-- Embedding of `BinaryManager._find_in_path`: success needs exit status 0
and non-empty stripped stdout; any raised exception gives `None`. -/
def find_in_path (whichRun : Option (Int × List Char)) : Option (List Char) :=
  match whichRun with
  | none => none
  | some (rc, out) =>
    if rc = 0 ∧ pyStrip out ≠ [] then some (pyStrip out) else none

/-- Strategy chain of `get_binary_path` after the in-memory memo check:
PATH lookup, then development-tree path, then cache, then download; the
download failure is wrapped into the `BinaryNotFoundError` message. -/
def getBinaryFresh (env : BinEnv) : Except (List Char) (List Char × BinSource) :=
  match find_in_path env.whichRun with
  | some p => .ok (p, .inPath)
  | none =>
    if env.pathExists env.devPath then .ok (env.devPath, .devTree)
    else if env.pathExists env.cachePath then .ok (env.cachePath, .cache)
    else
      match env.download with
      | .ok p => .ok (p, .downloaded)
      | .error e =>
        .error (("Could not find or download SENSE binary. Please build it "
          ++ "manually or check your internet connection. Error: ").data ++ e)

/-- Embedding of `BinaryManager.get_binary_path`: a memoized path that still
exists is returned at once; otherwise the four strategies run in order. -/
def get_binary_path (env : BinEnv) : Except (List Char) (List Char × BinSource) :=
  match env.memoPath with
  | some p => if env.pathExists p then .ok (p, .memo) else getBinaryFresh env
  | none => getBinaryFresh env

/-- C8: on a fresh manager (no memoized path) the four strategies are tried
in the fixed order — PATH lookup, development tree, cache, download — the
first success is returned with its provenance, and the resolution error is
raised exactly when all four strategies fail. -/
theorem get_binary_path_strategy_order (env : BinEnv) (hmemo : env.memoPath = none) :
    (∀ p, find_in_path env.whichRun = some p →
      get_binary_path env = .ok (p, .inPath)) ∧
    (find_in_path env.whichRun = none → env.pathExists env.devPath = true →
      get_binary_path env = .ok (env.devPath, .devTree)) ∧
    (find_in_path env.whichRun = none → env.pathExists env.devPath = false →
      env.pathExists env.cachePath = true →
      get_binary_path env = .ok (env.cachePath, .cache)) ∧
    (∀ p, find_in_path env.whichRun = none → env.pathExists env.devPath = false →
      env.pathExists env.cachePath = false → env.download = .ok p →
      get_binary_path env = .ok (p, .downloaded)) ∧
    ((∃ e, get_binary_path env = .error e) ↔
      (find_in_path env.whichRun = none ∧ env.pathExists env.devPath = false ∧
        env.pathExists env.cachePath = false ∧ ∃ de, env.download = .error de)) := by
  simp only [get_binary_path, hmemo]
  refine ⟨?_, ?_, ?_, ?_, ?_⟩
  · intro p hp; simp [getBinaryFresh, hp]
  · intro hp hdev; simp [getBinaryFresh, hp, hdev]
  · intro hp hdev hcache; simp [getBinaryFresh, hp, hdev, hcache]
  · intro p hp hdev hcache hdl; simp [getBinaryFresh, hp, hdev, hcache, hdl]
  · constructor
    · rintro ⟨e, he⟩
      unfold getBinaryFresh at he
      cases hp : find_in_path env.whichRun with
      | some p => rw [hp] at he; simp at he
      | none =>
        rw [hp] at he
        by_cases hdev : env.pathExists env.devPath
        · simp [hdev] at he
        · by_cases hcache : env.pathExists env.cachePath
          · simp [hdev, hcache] at he
          · cases hdl : env.download with
            | ok p => simp [hdev, hcache, hdl] at he
            | error de => exact ⟨rfl, by simpa using hdev, by simpa using hcache, de, rfl⟩
    · rintro ⟨hp, hdev, hcache, de, hdl⟩
      refine ⟨("Could not find or download SENSE binary. Please build it "
        ++ "manually or check your internet connection. Error: ").data ++ de, ?_⟩
      simp [getBinaryFresh, hp, hdev, hcache, hdl]

/-- Concrete all-fail environment for the C8 witness. -/
def binEnvAllFail : BinEnv :=
  { memoPath := none
    pathExists := fun _ => false
    whichRun := some (1, [])
    devPath := "/repo/sense".data
    cachePath := "/cache/sense".data
    download := .error "connection refused".data }

/-- Witness for C8: with every strategy failing, resolution raises. -/
theorem get_binary_path_strategy_order_witness :
    ∃ e, get_binary_path binEnvAllFail = .error e :=
  (get_binary_path_strategy_order binEnvAllFail rfl).2.2.2.2.mpr
    ⟨by decide, rfl, rfl, "connection refused".data, rfl⟩

/- REST client (`senseai/client.py`). The HTTP layer is modelled by the
status code and a classification of the response body. -/

/-- Classification of a response body as seen by `response.json()`. -/
inductive Payload (α : Type) where
  | invalid
  | jsonArray (items : List α)
  | jsonOther
deriving DecidableEq

/-- An HTTP answer: status code plus body classification. -/
structure HttpAnswer (α : Type) where
  status : Nat
  payload : Payload α
deriving DecidableEq

/-- Embedding of `SenseClient.get_findings`: a transport failure (`none`)
or an error status (`raise_for_status`) raises `APIError`; an invalid JSON
body raises `APIError` (both `except` arms wrap it); a JSON array is
returned, truncated to `limit`; any other JSON shape yields `[]`. -/
def get_findings {α : Type} (resp : Option (HttpAnswer α)) (limit : Option Nat) :
    Except (List Char) (List α) :=
  match resp with
  | none => .error "Failed to fetch findings: transport error".data
  | some ans =>
    if 400 ≤ ans.status then .error "Failed to fetch findings: HTTP error status".data
    else
      match ans.payload with
      | .invalid => .error "Failed to fetch findings: response body is not valid JSON".data
      | .jsonArray items =>
        .ok (match limit with | some n => items.take n | none => items)
      | .jsonOther => .ok []

/-- Counterexample to C9: a success status (200) whose body is valid JSON of
a non-array shape does not raise — `get_findings` silently returns the
substitute value `[]`. -/
theorem get_findings_nonarray_counterexample :
    get_findings (α := Nat) (some ⟨200, Payload.jsonOther⟩) none = .ok [] := rfl

/-- C9 (amended): on a success status, a body that is not valid JSON raises
`APIError`; but a body that is valid JSON of a non-array shape is silently
replaced by the empty list, not raised. -/
theorem get_findings_malformed_handling {α : Type} (status : Nat) (limit : Option Nat)
    (h : status < 400) :
    get_findings (α := α) (some ⟨status, Payload.invalid⟩) limit =
      .error "Failed to fetch findings: response body is not valid JSON".data ∧
    get_findings (α := α) (some ⟨status, Payload.jsonOther⟩) limit = .ok [] := by
  have hns : ¬ 400 ≤ status := by omega
  exact ⟨by simp [get_findings, hns], by simp [get_findings, hns]⟩

/-- Witness for C9 (amended) at status 200. -/
theorem get_findings_malformed_handling_witness :
    get_findings (α := Nat) (some ⟨200, Payload.invalid⟩) none =
      .error "Failed to fetch findings: response body is not valid JSON".data :=
  (get_findings_malformed_handling (α := Nat) 200 none (by decide)).1

/-- One server-sent event: its `event:` name and its `data:` payload. -/
structure SSEEvent where
  name : List Char
  data : List Char
deriving DecidableEq

/-- Embedding of the event loop of `SenseClient.stream_findings`, with JSON
parsing of the external payload abstracted as `parse`: a `finding` event
whose data parses is yielded; a `finding` event whose data fails to parse is
skipped; `connected` events and events of any other name are skipped. -/
def stream_findings {α : Type} (parse : List Char → Option α) : List SSEEvent → List α
  | [] => []
  | e :: rest =>
    if e.name = "finding".data then
      match parse e.data with
      | some f => f :: stream_findings parse rest
      | none => stream_findings parse rest
    else if e.name = "connected".data then stream_findings parse rest
    else stream_findings parse rest

/-- C10: for every stream, exactly the events named `finding` whose data
parses are yielded, in stream order; `connected` events and `finding` events
with unparseable data contribute nothing and never terminate the stream. -/
theorem stream_findings_filter {α : Type} (parse : List Char → Option α)
    (events : List SSEEvent) :
    stream_findings parse events =
      events.filterMap (fun e => if e.name = "finding".data then parse e.data else none) := by
  induction events with
  | nil => rfl
  | cons e rest ih =>
    by_cases hf : e.name = "finding".data
    · cases hp : parse e.data with
      | some f => simp [stream_findings, hf, hp, ih, List.filterMap_cons]
      | none => simp [stream_findings, hf, hp, ih, List.filterMap_cons]
    · by_cases hc : e.name = "connected".data <;>
        simp [stream_findings, hf, hc, ih, List.filterMap_cons]

/- Process Supervisor (`senseai/server.py`). The OS process table as seen
through psutil, the PID file and the network health probe form the world;
the in-memory `subprocess.Popen` handle and the PID-file contents form the
supervisor state. -/

/-- Outcome of `psutil.Process(pid)` followed by `.is_running()`/`.name()`:
the process is found (with its running flag and reported name), or the
lookup raises `NoSuchProcess` or `AccessDenied`. -/
inductive PsLookup where
  | found (running : Bool) (name : List Char)
  | noSuch
  | accessDenied
deriving DecidableEq

/-- External world at one observation instant: the OS process table and the
result the network health probe would report. -/
structure World where
  procTable : Int → PsLookup
  health : Bool

/-- In-memory process handle: its OS pid and whether `poll()` is `None`. -/
structure Handle where
  pid : Int
  alive : Bool
deriving DecidableEq

/-- Supervisor state: the optional in-memory handle and the PID file. -/
structure SupState where
  process : Option Handle
  pidFile : PidFile
deriving DecidableEq

/-- The guard `self.process and self.process.poll() is None`. -/
def handleAliveB : Option Handle → Bool
  | some h => h.alive
  | none => false

/-- Embedding of `SenseServer.is_running`: first the in-memory handle; then
the PID file cross-checked against the process table, where a found process
RETURNS its running-and-name-match value while a raising lookup falls
through; finally the network health probe. -/
def is_running (st : SupState) (w : World) : Bool :=
  if handleAliveB st.process then true
  else
    match read_pid st.pidFile with
    | some pid =>
      if pid ≠ 0 then
        match w.procTable pid with
        | .found r name => r && listContainsSub "sense".data (pyLower name)
        | .noSuch => w.health
        | .accessDenied => w.health
      else w.health
    | none => w.health

/-- The positive form of liveness signal 2 as the spec states it: the PID
names a process that exists, is running, and whose name contains the
backend binary name. Used in theorem statements only. -/
def pidLivenessSignal (w : World) (pid : Int) : Bool :=
  if pid = 0 then false
  else
    match w.procTable pid with
    | .found r name => r && listContainsSub "sense".data (pyLower name)
    | .noSuch => false
    | .accessDenied => false

/-- Message of the early-death branch of `_wait_for_ready`. -/
def diedMsg (stderrText : List Char) : List Char :=
  "Server process died unexpectedly: ".data ++ stderrText

/-- Message of the timeout branch of `_wait_for_ready`. -/
def timeoutMsg (timeout : Nat) : List Char :=
  "Server failed to become ready within ".data ++ natToChars timeout ++ " seconds".data

/-- Observations available to one readiness wait: the health probe and the
`poll()` status at each 0.5-second tick, and the stderr tail that would be
read on death. -/
structure WaitEnv where
  health : Nat → Bool
  dead : Nat → Bool
  stderrText : List Char

/-- One iteration of the `_wait_for_ready` loop at tick `i` with the given
remaining fuel; the loop of the source runs while `0.5 * i < timeout`, i.e.
for `2 * timeout` ticks, assuming instantaneous probes. -/
def waitGo (env : WaitEnv) (hasHandle : Bool) (timeout : Nat) :
    Nat → Nat → Except (List Char) Unit
  | 0, _ => .error (timeoutMsg timeout)
  | fuel + 1, i =>
    if env.health i then .ok ()
    else if hasHandle && env.dead i then .error (diedMsg env.stderrText)
    else waitGo env hasHandle timeout fuel (i + 1)

/-- Embedding of `SenseServer._wait_for_ready`. -/
def wait_for_ready (env : WaitEnv) (hasHandle : Bool) (timeout : Nat) :
    Except (List Char) Unit :=
  waitGo env hasHandle timeout (2 * timeout) 0

/-- Externally visible actions the supervisor can perform on the child
process and the PID file. -/
inductive Action where
  | spawnProc
  | savePidFile
  | terminateProc
  | killProc
  | waitedExit
  | removedPidFile
deriving DecidableEq

/-- Environment of one `start` call: the binary-resolution outcome, the
handle `subprocess.Popen` would produce, and the readiness observations. -/
structure StartEnv where
  binaryRes : Except (List Char) (List Char)
  spawn : Handle
  wait : WaitEnv

/-- Result of one `start` call: the raised error if any, the state after
the call (Python side effects persist even when the call raises), how many
processes were spawned, and the performed actions. -/
structure StartOut where
  err : Option (List Char)
  st : SupState
  spawned : Nat
  actions : List Action
deriving DecidableEq

/-- Embedding of `SenseServer.start`: no-op when `is_running`; then binary
resolution (failure wrapped as a `ServerError`); then spawn, PID save and —
when requested — the readiness wait, whose failure is wrapped but leaves
the spawned handle and saved PID in place. -/
def start (st : SupState) (w : World) (env : StartEnv) (waitReady : Bool)
    (timeout : Nat) : StartOut :=
  if is_running st w then { err := none, st := st, spawned := 0, actions := [] }
  else
    match env.binaryRes with
    | .error e =>
      { err := some ("Failed to locate SENSE binary: ".data ++ e), st := st,
        spawned := 0, actions := [] }
    | .ok _path =>
      let st1 : SupState :=
        { process := some env.spawn, pidFile := save_pid env.spawn.pid st.pidFile }
      if waitReady then
        match wait_for_ready env.wait true timeout with
        | .ok _ =>
          { err := none, st := st1, spawned := 1, actions := [.spawnProc, .savePidFile] }
        | .error m =>
          { err := some ("Failed to start SENSE server: ".data ++ m), st := st1,
            spawned := 1, actions := [.spawnProc, .savePidFile] }
      else { err := none, st := st1, spawned := 1, actions := [.spawnProc, .savePidFile] }

/-- Outcome of the terminate-then-wait sequence inside `stop`: the process
exits within the stop timeout; or the first wait raises `TimeoutExpired`
and the forced kill plus unconditional wait finish it; or signalling or
waiting raises some other exception. -/
inductive StopWaitOutcome where
  | graceful
  | forcedKill
  | raisesErr (msg : List Char)

/-- Result of one `stop` call. -/
structure StopOut where
  err : Option (List Char)
  st : SupState
  actions : List Action
deriving DecidableEq

/-- The conditional unlink of `_remove_pid`. -/
def rmActions : PidFile → List Action
  | some _ => [Action.removedPidFile]
  | none => []

/-- Embedding of `SenseServer.stop`: no-op when not running; with an
in-memory handle, terminate, wait (escalating to kill on timeout), drop the
handle, then remove the PID file — an exception propagates wrapped and
leaves handle and PID file in place; without a handle the terminate block
is skipped and the PID file is removed at once. -/
def stop (st : SupState) (w : World) (outcome : StopWaitOutcome) : StopOut :=
  if is_running st w = false then { err := none, st := st, actions := [] }
  else
    match st.process with
    | some _h =>
      match outcome with
      | .raisesErr m =>
        { err := some ("Failed to stop SENSE server: ".data ++ m), st := st,
          actions := [.terminateProc] }
      | .graceful =>
        { err := none, st := { process := none, pidFile := none },
          actions := [.terminateProc, .waitedExit] ++ rmActions st.pidFile }
      | .forcedKill =>
        { err := none, st := { process := none, pidFile := none },
          actions := [.terminateProc, .killProc, .waitedExit] ++ rmActions st.pidFile }
    | none =>
      { err := none, st := { st with pidFile := none }, actions := rmActions st.pidFile }

/- Lemmas about the readiness loop. -/

lemma waitGo_timeout (env : WaitEnv) (T : Nat) :
    ∀ (fuel i : Nat), (∀ j, j < fuel → env.health (i + j) = false) →
      (∀ j, j < fuel → env.dead (i + j) = false) →
      waitGo env true T fuel i = .error (timeoutMsg T) := by
  intro fuel
  induction fuel with
  | zero => intro i _ _; rfl
  | succ fuel ih =>
    intro i hh hd
    have h0 := hh 0 (by omega)
    have d0 := hd 0 (by omega)
    rw [Nat.add_zero] at h0 d0
    simp only [waitGo, h0, d0, Bool.false_eq_true, if_false, Bool.and_false]
    apply ih
    · intro j hj
      have := hh (j + 1) (by omega)
      rwa [show i + (j + 1) = i + 1 + j by omega] at this
    · intro j hj
      have := hd (j + 1) (by omega)
      rwa [show i + (j + 1) = i + 1 + j by omega] at this

lemma waitGo_died (env : WaitEnv) (T : Nat) :
    ∀ (fuel i : Nat), (∀ j, j < fuel → env.health (i + j) = false) →
      (∃ j, j < fuel ∧ env.dead (i + j) = true) →
      waitGo env true T fuel i = .error (diedMsg env.stderrText) := by
  intro fuel
  induction fuel with
  | zero => rintro i _ ⟨j, hj, _⟩; omega
  | succ fuel ih =>
    rintro i hh ⟨j, hj, hdj⟩
    have h0 := hh 0 (by omega)
    rw [Nat.add_zero] at h0
    by_cases hd0 : env.dead i = true
    · simp [waitGo, h0, hd0]
    · have hd0f : env.dead i = false := by simpa using hd0
      simp only [waitGo, h0, hd0f, Bool.false_eq_true, if_false, Bool.and_false]
      apply ih
      · intro k hk
        have := hh (k + 1) (by omega)
        rwa [show i + (k + 1) = i + 1 + k by omega] at this
      · cases j with
        | zero =>
          rw [Nat.add_zero] at hdj
          exact absurd hdj hd0
        | succ j' =>
          refine ⟨j', by omega, ?_⟩
          rwa [show i + (j' + 1) = i + 1 + j' by omega] at hdj

/-- A supervisor holding a live in-memory handle reports running
regardless of the rest of the world. -/
lemma is_running_of_alive (st : SupState) (w : World)
    (h : handleAliveB st.process = true) : is_running st w = true := by
  simp [is_running, h]

/-- All three liveness signals negative forces `is_running` to false. -/
lemma is_running_false_of (st : SupState) (w : World)
    (h1 : st.process = none)
    (h2 : ∀ pid, read_pid st.pidFile = some pid → pidLivenessSignal w pid = false)
    (h3 : w.health = false) : is_running st w = false := by
  unfold is_running
  simp only [h1, handleAliveB, Bool.false_eq_true, if_false]
  cases hp : read_pid st.pidFile with
  | none => exact h3
  | some pid =>
    have hsig := h2 pid hp
    unfold pidLivenessSignal at hsig
    by_cases hz : pid = 0
    · subst hz; simp [h3]
    · rw [if_neg hz] at hsig
      show (if pid ≠ 0 then
          match w.procTable pid with
          | .found r name => r && listContainsSub "sense".data (pyLower name)
          | .noSuch => w.health
          | .accessDenied => w.health
        else w.health) = false
      rw [if_pos hz]
      cases hq : w.procTable pid with
      | found r name => rw [hq] at hsig; exact hsig
      | noSuch => exact h3
      | accessDenied => exact h3

/- Concrete fixtures shared by the supervisor theorems. -/

/-- A fresh supervisor: no handle, no PID file. -/
def stIdle : SupState := { process := none, pidFile := none }

/-- A world with an empty process table and a failing health probe. -/
def wIdle : World := { procTable := fun _ => .noSuch, health := false }

/-- A supervisor whose only record is a stale PID file naming pid 42. -/
def stStalePid : SupState := { process := none, pidFile := some "42".data }

/-- A world where pid 42 was reused by a running `python3` process while a
healthy backend answers on the port. -/
def wNameMismatch : World :=
  { procTable := fun pid => if pid = 42 then .found true "python3".data else .noSuch
    health := true }

/-- A supervisor with no in-memory handle but a PID file naming pid 314. -/
def stHandleLess : SupState := { process := none, pidFile := some "314".data }

/-- A world where pid 314 is a live process named `sense`. -/
def wLiveSense : World :=
  { procTable := fun pid => if pid = 314 then .found true "sense".data else .noSuch
    health := false }

/-- A supervisor holding a live in-memory handle for pid 99. -/
def stLive : SupState := { process := some ⟨99, true⟩, pidFile := some "99".data }

/-- A start environment whose health probe succeeds at the first tick. -/
def envQuick : StartEnv :=
  { binaryRes := .ok "/usr/local/bin/sense".data
    spawn := ⟨4242, true⟩
    wait := { health := fun _ => true, dead := fun _ => false, stderrText := [] } }

/-- A start environment whose health probe never succeeds while the spawned
process stays alive. -/
def envNeverReady : StartEnv :=
  { binaryRes := .ok "/usr/local/bin/sense".data
    spawn := ⟨4242, true⟩
    wait := { health := fun _ => false, dead := fun _ => false,
              stderrText := "bind failed".data } }

/-- Counterexample to C1: with no in-memory handle, a PID file naming a
running but differently-named process (pid 42, `python3`), and a healthy
backend on the port, `is_running` returns false — it trusts the stale name
check instead of falling through to the network probe, although a liveness
signal (the health probe) is positive. -/
theorem is_running_name_mismatch_counterexample :
    is_running stStalePid wNameMismatch = false ∧
    wNameMismatch.health = true ∧
    read_pid stStalePid.pidFile = some 42 ∧
    wNameMismatch.procTable 42 = .found true "python3".data := by decide

/-- C1 (amended): when the handle signal is negative and the PID file holds
a nonzero PID, a process found in the OS table decides `is_running` by its
running-and-name-match value alone — a name mismatch yields false with no
network probe — and the fall-through to the health probe happens exactly
when the process-table lookup raises (`NoSuchProcess` or `AccessDenied`). -/
theorem is_running_pid_signal_characterization (st : SupState) (w : World) (pid : Int)
    (hh : handleAliveB st.process = false)
    (hp : read_pid st.pidFile = some pid) (hnz : pid ≠ 0) :
    (∀ r name, w.procTable pid = .found r name →
      is_running st w = (r && listContainsSub "sense".data (pyLower name))) ∧
    (w.procTable pid = .noSuch → is_running st w = w.health) ∧
    (w.procTable pid = .accessDenied → is_running st w = w.health) := by
  refine ⟨?_, ?_, ?_⟩
  · intro r name hq; simp [is_running, hh, hp, hnz, hq]
  · intro hq; simp [is_running, hh, hp, hnz, hq]
  · intro hq; simp [is_running, hh, hp, hnz, hq]

/-- Witness for C1 (amended) at the concrete mismatch state. -/
theorem is_running_pid_signal_characterization_witness :
    is_running stStalePid wNameMismatch = false := by
  have h := (is_running_pid_signal_characterization stStalePid wNameMismatch 42
    (by decide) (by decide) (by decide)).1 true "python3".data (by decide)
  exact h.trans (by decide)

/-- Counterexample to C2: on a supervisor with no in-memory handle whose
PID file names a live `sense` process (pid 314), `stop()` succeeds and
removes the PID file while sending no signal at all — the PID file is
cleared while the backend process named by it is still alive. -/
theorem stop_clears_pidfile_while_alive_counterexample :
    (stop stHandleLess wLiveSense .graceful).err = none ∧
    (stop stHandleLess wLiveSense .graceful).st.pidFile = none ∧
    (stop stHandleLess wLiveSense .graceful).actions = [Action.removedPidFile] ∧
    read_pid stHandleLess.pidFile = some 314 ∧
    wLiveSense.procTable 314 = .found true "sense".data := by decide

/-- C2 (amended): when `stop()` finds the supervisor running and holds an
in-memory handle, the PID file is removed only after the wait confirms the
exit (forced kill included), and a raising terminate/wait propagates the
error leaving the state — PID file included — untouched; but when it holds
no handle, `stop()` removes the PID file at once without signalling or
waiting on the process the file names. -/
theorem stop_pidfile_discipline (st : SupState) (w : World)
    (hrun : is_running st w = true) :
    (st.process.isSome = true →
      ((stop st w .graceful).st.pidFile = none ∧
        (stop st w .graceful).actions =
          [Action.terminateProc, Action.waitedExit] ++ rmActions st.pidFile) ∧
      ((stop st w .forcedKill).st.pidFile = none ∧
        (stop st w .forcedKill).actions =
          [Action.terminateProc, Action.killProc, Action.waitedExit] ++
            rmActions st.pidFile) ∧
      (∀ m, (stop st w (.raisesErr m)).err.isSome = true ∧
        (stop st w (.raisesErr m)).st = st ∧
        Action.removedPidFile ∉ (stop st w (.raisesErr m)).actions)) ∧
    (st.process = none →
      ∀ o, (stop st w o).err = none ∧ (stop st w o).st.pidFile = none ∧
        Action.terminateProc ∉ (stop st w o).actions ∧
        Action.killProc ∉ (stop st w o).actions) := by
  refine ⟨fun hsome => ?_, fun hnone o => ?_⟩
  · obtain ⟨h, hh⟩ := Option.isSome_iff_exists.mp hsome
    refine ⟨⟨?_, ?_⟩, ⟨?_, ?_⟩, fun m => ⟨?_, ?_, ?_⟩⟩ <;> simp [stop, hrun, hh]
  · cases hpf : st.pidFile <;> cases o <;>
      simp [stop, hrun, hnone, rmActions, hpf]

/-- Witness for C2 (amended) on a supervisor with a live handle. -/
theorem stop_pidfile_discipline_witness :
    (stop stLive wIdle .graceful).st.pidFile = none ∧
    Action.removedPidFile ∉ (stop stLive wIdle (.raisesErr "EPERM".data)).actions := by
  have h := stop_pidfile_discipline stLive wIdle (by decide)
  exact ⟨(h.1 (by decide)).1.1, ((h.1 (by decide)).2.2 "EPERM".data).2.2⟩

/-- C3: during a readiness wait started by `start(wait_for_ready=True,
timeout=T)` with all health probes failing, an observed process death makes
`start` raise the wrapped process-died error carrying the captured stderr
text; with the process alive through the whole window, `start` raises the
wrapped timeout error naming `T`, the spawned handle is retained, and no
terminate or kill is ever issued. -/
theorem start_readiness_failure_modes (st : SupState) (w : World) (env : StartEnv)
    (T : Nat) (p : List Char)
    (hrun : is_running st w = false) (hbin : env.binaryRes = .ok p) :
    ((∀ i, i < 2 * T → env.wait.health i = false) →
      (∃ k, k < 2 * T ∧ env.wait.dead k = true) →
      (start st w env true T).err =
        some ("Failed to start SENSE server: ".data ++ diedMsg env.wait.stderrText)) ∧
    ((∀ i, i < 2 * T → env.wait.health i = false) →
      (∀ i, i < 2 * T → env.wait.dead i = false) →
      (start st w env true T).err =
        some ("Failed to start SENSE server: ".data ++ timeoutMsg T) ∧
      (start st w env true T).st.process = some env.spawn ∧
      Action.terminateProc ∉ (start st w env true T).actions ∧
      Action.killProc ∉ (start st w env true T).actions) := by
  constructor
  · intro hh hd
    have hw : wait_for_ready env.wait true T = .error (diedMsg env.wait.stderrText) := by
      unfold wait_for_ready
      apply waitGo_died
      · intro j hj; simpa using hh j hj
      · obtain ⟨k, hk, hdk⟩ := hd
        exact ⟨k, hk, by simpa using hdk⟩
    simp [start, hrun, hbin, hw]
  · intro hh hd
    have hw : wait_for_ready env.wait true T = .error (timeoutMsg T) := by
      unfold wait_for_ready
      apply waitGo_timeout
      · intro j hj; simpa using hh j hj
      · intro j hj; simpa using hd j hj
    refine ⟨?_, ?_, ?_, ?_⟩ <;> simp [start, hrun, hbin, hw]

/-- Witness for C3: a 1-second wait in which the probe never succeeds and
the process never dies raises the timeout error and kills nothing. -/
theorem start_readiness_failure_modes_witness :
    (start stIdle wIdle envNeverReady true 1).err =
      some ("Failed to start SENSE server: ".data ++ timeoutMsg 1) ∧
    Action.killProc ∉ (start stIdle wIdle envNeverReady true 1).actions := by
  have h := (start_readiness_failure_modes stIdle wIdle envNeverReady 1
    "/usr/local/bin/sense".data (by decide) rfl).2 (fun i _ => rfl) (fun i _ => rfl)
  exact ⟨h.1, h.2.2.2⟩

/-- C5: idempotent start — when the liveness check reports running,
`start()` returns at once with no spawn, no error and no state change; and
a first successful `start(wait_for_ready=True)` whose spawned handle is
alive makes every subsequent `start()` a no-op, so two successive calls
spawn exactly one process. -/
theorem start_idempotent (st : SupState) (w : World) (env : StartEnv)
    (waitReady : Bool) (T : Nat) (p : List Char) :
    (is_running st w = true →
      start st w env waitReady T = { err := none, st := st, spawned := 0, actions := [] }) ∧
    (is_running st w = false → env.binaryRes = .ok p → env.spawn.alive = true →
      wait_for_ready env.wait true T = .ok () →
      (start st w env true T).err = none ∧ (start st w env true T).spawned = 1 ∧
      ∀ (w₂ : World) (env₂ : StartEnv) (wr₂ : Bool) (T₂ : Nat),
        start (start st w env true T).st w₂ env₂ wr₂ T₂ =
          { err := none, st := (start st w env true T).st, spawned := 0, actions := [] }) := by
  refine ⟨fun hrun => ?_, fun hrun hbin halive hwait => ?_⟩
  · simp [start, hrun]
  · have hst : (start st w env true T).st =
        ⟨some env.spawn, save_pid env.spawn.pid st.pidFile⟩ := by
      simp [start, hrun, hbin, hwait]
    refine ⟨by simp [start, hrun, hbin, hwait], by simp [start, hrun, hbin, hwait], ?_⟩
    intro w₂ env₂ wr₂ T₂
    rw [hst]
    have hr2 : is_running ⟨some env.spawn, save_pid env.spawn.pid st.pidFile⟩ w₂ = true :=
      is_running_of_alive _ _ (by simpa [handleAliveB] using halive)
    simp [start, hr2]

/-- Witness for C5: two successive starts from a fresh supervisor spawn
exactly one process. -/
theorem start_idempotent_witness :
    (start stIdle wIdle envQuick true 1).spawned = 1 ∧
    (start (start stIdle wIdle envQuick true 1).st wIdle envQuick true 1).spawned = 0 := by
  have h := (start_idempotent stIdle wIdle envQuick true 1
    "/usr/local/bin/sense".data).2 (by decide) rfl rfl rfl
  exact ⟨h.2.1, by rw [h.2.2 wIdle envQuick true 1]⟩

/-- C6: `stop()` on a never-started supervisor — no in-memory handle, no
PID-file record of a live matching process, no healthy backend — is a
complete no-op: no error, no state change, no action performed. -/
theorem stop_never_started_noop (st : SupState) (w : World) (o : StopWaitOutcome)
    (h1 : st.process = none)
    (h2 : ∀ pid, read_pid st.pidFile = some pid → pidLivenessSignal w pid = false)
    (h3 : w.health = false) :
    stop st w o = { err := none, st := st, actions := [] } := by
  unfold stop
  rw [is_running_false_of st w h1 h2 h3]
  simp

/-- Witness for C6 on a fresh supervisor in an idle world. -/
theorem stop_never_started_noop_witness :
    stop stIdle wIdle .graceful = { err := none, st := stIdle, actions := [] } :=
  stop_never_started_noop stIdle wIdle .graceful rfl
    (fun pid hp => by simp [stIdle, read_pid] at hp) rfl

end Sense
